import Mathlib

/-!
# Smudge: pending-ack table, probe scheduler and verb dispatch

A shallow embedding of `membership.go` (package `blackfish`, the early form of
the Smudge membership library).

* Go's `uint32` is a `Nat` reduced modulo `2 ^ 32` wherever the source can
  overflow.
* `*Node` is a reference (`NodeRef`) into a heap `State.nodes`, so that two
  pointers to one node alias as they do in Go.
* The global map `pending_acks` is an association list; `mapStore`,
  `mapDelete` and `mapLookup` are Go's `m[k] = v`, `delete(m, k)` and
  `v, ok := m[k]`.
* The clock (`GetNowInMillis`) and the network are inputs of every step
  (`Oracle`).
* Goroutines started with `go` are run to completion at the point where they
  are started.
-/

namespace Smudge

/-! ## Machine arithmetic and string formatting -/

/-- The modulus of Go's `uint32`. -/
def U32 : Nat := 4294967296

/-- Reduction of a natural number to a `uint32`. -/
def wrapU32 (n : Nat) : Nat := n % U32

/-- Subtraction `a - b` on `uint32`, wrapping modulo `2 ^ 32`. -/
def subU32 (a b : Nat) : Nat := (a % U32 + U32 - b % U32) % U32

/-- Base-10 rendering `strconv.FormatInt(i, 10)`: a minus sign for negative
numbers, then the decimal digits. -/
def FormatInt (i : Int) : String :=
  if i < 0 then "-" ++ Nat.repr i.natAbs else Nat.repr i.natAbs

/-- The conversion `int64(code)` of a `uint32`, which never changes the value. -/
def int64 (code : Nat) : Int := Int.ofNat (wrapU32 code)

/-! ## Data model of `membership.go` -/

/-- A pointer `*Node`. -/
abbrev NodeRef := Nat

/-- The `Node` record, with the fields `Begin` fills in. -/
structure Node where
  Host : List Nat
  Port : Nat
  Heartbeats : Nat
  Timestamp : Nat
deriving DecidableEq, Repr

/-- The record `pendingAck`. -/
structure pendingAck where
  StartTime : Nat
  Node : NodeRef
deriving DecidableEq, Repr

/-- Value of `TIMEOUT_MILLIS`. -/
def TIMEOUT_MILLIS : Nat := 2500

/-- The method `pendingAck.Elapsed`, with the clock reading as an argument. -/
def pendingAck.Elapsed (now : Nat) (a : pendingAck) : Nat := subU32 now a.StartTime

/-- What one call of `transmitVerbGenericUDP` meets on the network: each of
the three fallible calls can return an error. -/
inductive NetResult where
  | resolveError (e : String)
  | dialError (e : String)
  | writeError (e : String)
  | written
deriving DecidableEq, Repr

/-- One call of `transmitVerbGenericUDP`, as seen from outside. -/
structure Transmission where
  target : String
  verb : String
  code : Nat
  result : NetResult
deriving DecidableEq, Repr

/-- The part of the `message` record that `membership.go` reads. -/
structure message where
  sender : Option NodeRef
  verb : String
  code : Nat
deriving DecidableEq, Repr

/-- The package-level variables of `membership.go`, the node lists it ranges
over, the heap the node pointers refer to, and the record of transmissions. -/
structure State where
  current_heartbeat : Nat
  pending_acks : List (String × pendingAck)
  nodes : NodeRef → Node
  live_nodes : List NodeRef
  dead_nodes : List NodeRef
  transmissions : List Transmission

/-- Methods and helpers whose bodies are in other files of the package. -/
structure Deps where
  /-- The method `Node.Address`. -/
  Address : Node → String
  /-- The method `Node.Touch`, given the clock reading. -/
  Touch : Nat → Node → Node
  /-- The random choice of a dead node made by `ResurrectDeadNode`. -/
  pickDead : List NodeRef → Option NodeRef
  /-- The test `PruneDeadFromList` applies to keep a dead node. -/
  keepDead : Nat → Node → Bool

/-- Inputs of one step: the clock reading and the outcome of a transmission to
an address. -/
structure Oracle where
  now : Nat
  net : String → NetResult

/-! ## Go map operations on `pending_acks` -/

/-- Go's `v, ok := m[k]`. -/
def mapLookup (m : List (String × pendingAck)) (k : String) : Option pendingAck :=
  (m.find? (fun e => e.1 == k)).map Prod.snd

/-- Go's `delete(m, k)`. -/
def mapDelete (m : List (String × pendingAck)) (k : String) : List (String × pendingAck) :=
  m.filter (fun e => e.1 != k)

/-- Go's `m[k] = v`. -/
def mapStore (m : List (String × pendingAck)) (k : String) (v : pendingAck) :
    List (String × pendingAck) :=
  (k, v) :: mapDelete m k

/-! ## Operations of `membership.go` -/

/-- The key `address + ":" + strconv.FormatInt(int64(code), 10)` built in
`transmitVerbPingUDP`. -/
def pingKey (d : Deps) (s : State) (node : NodeRef) (code : Nat) : String :=
  d.Address (s.nodes node) ++ ":" ++ FormatInt (int64 code)

/-- The key built in `receiveVerbAckUDP` from the sender and code of a message. -/
def ackKey (d : Deps) (s : State) (sender : NodeRef) (code : Nat) : String :=
  d.Address (s.nodes sender) ++ ":" ++ FormatInt (int64 code)

/-- Function `transmitVerbGenericUDP`: resolve, dial, write; the first error is
returned. -/
def transmitVerbGenericUDP (d : Deps) (o : Oracle) (s : State) (node : NodeRef)
    (verb : String) (code : Nat) : State × Option String :=
  let addr := d.Address (s.nodes node)
  let r := o.net addr
  let s1 : State := { s with transmissions := s.transmissions ++ [⟨addr, verb, code, r⟩] }
  match r with
  | NetResult.resolveError e => (s1, some e)
  | NetResult.dialError e => (s1, some e)
  | NetResult.writeError e => (s1, some e)
  | NetResult.written => (s1, none)

/-- Function `transmitVerbAckUDP`. -/
def transmitVerbAckUDP (d : Deps) (o : Oracle) (s : State) (node : NodeRef)
    (code : Nat) : State × Option String :=
  transmitVerbGenericUDP d o s node "ACK" code

/-- Function `transmitVerbPingUDP`: the pending ack is stored before the
datagram is transmitted. -/
def transmitVerbPingUDP (d : Deps) (o : Oracle) (s : State) (node : NodeRef)
    (code : Nat) : State × Option String :=
  let key := pingKey d s node code
  let pack : pendingAck := { Node := node, StartTime := o.now }
  let s1 : State := { s with pending_acks := mapStore s.pending_acks key pack }
  transmitVerbGenericUDP d o s1 node "PNG" code

/-- Function `PingNode`. -/
def PingNode (d : Deps) (o : Oracle) (s : State) (node : NodeRef) : State × Option String :=
  transmitVerbPingUDP d o s node s.current_heartbeat

/-- Function `PingAllNodes`: one `PingNode` per element of `live_nodes`. -/
def PingAllNodes (d : Deps) (o : Oracle) (s : State) : State :=
  s.live_nodes.foldl (fun acc node => (PingNode d o acc node).1) s

/-- Function `receiveVerbAckUDP`. A nil sender is a nil dereference (`none`). -/
def receiveVerbAckUDP (d : Deps) (o : Oracle) (s : State) (msg : message) :
    Option (State × Option String) :=
  match msg.sender with
  | none => none
  | some sender =>
    let key := ackKey d s sender msg.code
    match mapLookup s.pending_acks key with
    | some _ =>
      let old := s.nodes sender
      let touched := d.Touch o.now { old with Heartbeats := s.current_heartbeat }
      some ({ s with nodes := Function.update s.nodes sender touched,
                     pending_acks := mapDelete s.pending_acks key }, none)
    | none => some (s, none)

/-- One pass of the inner loop of `startTimeoutCheckLoop`: range over the
entries and delete the key of each one that has timed out. -/
def timeoutCheckPass (o : Oracle) (s : State) : State :=
  let swept := s.pending_acks.foldl
    (fun m e => if e.2.Elapsed o.now > TIMEOUT_MILLIS then mapDelete m e.1 else m)
    s.pending_acks
  { s with pending_acks := swept }

/-- Modelled from the spec: `PruneDeadFromList` is not in src/. The registry
forgets dead nodes whose retention has run out; which ones are kept is the
test `Deps.keepDead`. -/
def PruneDeadFromList (d : Deps) (o : Oracle) (s : State) : State :=
  { s with dead_nodes := s.dead_nodes.filter (fun r => d.keepDead o.now (s.nodes r)) }

/-- Modelled from the spec: `ResurrectDeadNode` is not in src/. The detector
picks one dead node, if there is one, and probes it directly. -/
def ResurrectDeadNode (d : Deps) (o : Oracle) (s : State) : State :=
  match d.pickDead s.dead_nodes with
  | some r => (PingNode d o s r).1
  | none => s

/-- The first three statements of the loop body of `Begin`: increment the
heartbeat, prune, ping all live nodes. -/
def beginProbe (d : Deps) (o : Oracle) (s : State) : State :=
  PingAllNodes d o
    (PruneDeadFromList d o { s with current_heartbeat := wrapU32 (s.current_heartbeat + 1) })

/-- The guard `current_heartbeat%25 == 0` of the loop body of `Begin`. -/
def resurrectDue (s : State) : Bool := s.current_heartbeat % 25 == 0

/-- One cycle of the loop of `Begin`. -/
def beginCycle (d : Deps) (o : Oracle) (s : State) : State :=
  let s1 := beginProbe d o s
  if resurrectDue s1 then ResurrectDeadNode d o s1 else s1

/-- The state after `k` cycles of the loop of `Begin`, cycle `i` (counted from
zero) running under the oracle `os i`. -/
def beginCycles (d : Deps) (os : Nat → Oracle) (s : State) : Nat → State
  | 0 => s
  | k + 1 => beginCycle d (os k) (beginCycles d os s k)

/-- Whether cycle `k` (counted from zero) of the loop of `Begin` calls
`ResurrectDeadNode`. -/
def resurrectsInCycle (d : Deps) (os : Nat → Oracle) (s : State) (k : Nat) : Bool :=
  resurrectDue (beginProbe d (os k) (beginCycles d os s k))

/-- States the package can be in: `init` leaves the table empty, and from then
on heartbeat cycles of `Begin`, ACK handling and passes of the timeout check
interleave in any order. -/
inductive Reachable (d : Deps) : State → Prop where
  | init (s : State) (h : s.pending_acks = []) : Reachable d s
  | cycle (o : Oracle) (s : State) (h : Reachable d s) : Reachable d (beginCycle d o s)
  | ack (o : Oracle) (msg : message) (s s1 : State) (e : Option String)
      (h : Reachable d s) (hr : receiveVerbAckUDP d o s msg = some (s1, e)) : Reachable d s1
  | sweep (o : Oracle) (s : State) (h : Reachable d s) : Reachable d (timeoutCheckPass o s)

/-- The entries of the pending-ack table whose `Node` is the given target. -/
def pendingFor (s : State) (target : NodeRef) : List (String × pendingAck) :=
  s.pending_acks.filter (fun e => e.2.Node == target)

/-- The entries of the pending-ack table stored under the given key. -/
def pendingUnder (s : State) (k : String) : List (String × pendingAck) :=
  s.pending_acks.filter (fun e => e.1 == k)

/-- The PING that `PingNode` transmits to a node at a heartbeat. -/
def pingOf (d : Deps) (o : Oracle) (s : State) (hb : Nat) (r : NodeRef) : Transmission :=
  { target := d.Address (s.nodes r), verb := "PNG", code := hb,
    result := o.net (d.Address (s.nodes r)) }

/-! ## Verb dispatch of `receiveMessageUDP` -/

/-- Function `receiveVerbForwardUDP`: prints the address of the sender (a nil
sender is a nil dereference, `none`) and returns the error of the stub. -/
def receiveVerbForwardUDP (s : State) (msg : message) : Option (State × Option String) :=
  match msg.sender with
  | none => none
  | some _ => some (s, some "FWD: Unsupported operation")

/-- Function `receiveVerbPingUDP`: answers with an ACK carrying the code of the
PING. -/
def receiveVerbPingUDP (d : Deps) (o : Oracle) (s : State) (msg : message) :
    Option (State × Option String) :=
  match msg.sender with
  | none => none
  | some sender => some (transmitVerbAckUDP d o s sender msg.code)

/-- Function `receiveVerbNonForwardPingUDP`: prints the address of the sender
and returns the error of the stub. -/
def receiveVerbNonForwardPingUDP (s : State) (msg : message) : Option (State × Option String) :=
  match msg.sender with
  | none => none
  | some _ => some (s, some "NFP: Unsupported operation")

/-- Function `receiveMessageUDP`. The function `decodeMessage` is in another
file of the package and is an argument here. A decoding error is returned; a
message without a sender is only reported; otherwise the `switch` on the verb
runs the handler of the verb, and a verb without a case leaves `err` nil. -/
def receiveMessageUDP (d : Deps) (o : Oracle) (s : State)
    (decodeMessage : State → String → List Nat → Except String message)
    (addr : String) (msg_bytes : List Nat) : Option (State × Option String) :=
  match decodeMessage s addr msg_bytes with
  | Except.error e => some (s, some e)
  | Except.ok msg =>
    match msg.sender with
    | none => some (s, none)
    | some _ =>
      if msg.verb = "PNG" then receiveVerbPingUDP d o s msg
      else if msg.verb = "ACK" then receiveVerbAckUDP d o s msg
      else if msg.verb = "FWD" then receiveVerbForwardUDP s msg
      else if msg.verb = "NFP" then receiveVerbNonForwardPingUDP s msg
      else some (s, none)

/-! ## The TCP path: `receiveNodes` -/

/-- A value in a gob stream, as far as `receiveNodes` decodes one. -/
inductive GobValue where
  | int (i : Int)
  | uint (n : Nat)
  | bytes (b : List Nat)
deriving DecidableEq, Repr

/-- What a `gob.Decoder` has left to deliver: the values the peer sent, in
order, or an error of the connection; an empty stream is at end of file. -/
abbrev Decoder := List (Except String GobValue)

/-- The call `decoder.Decode(&length)` with `length` an `int`. -/
def DecodeInt (dec : Decoder) : Except String (Int × Decoder) :=
  match dec with
  | Except.ok (GobValue.int i) :: rest => Except.ok (i, rest)
  | Except.ok _ :: _ => Except.error "gob: type mismatch"
  | Except.error e :: _ => Except.error e
  | [] => Except.error "EOF"

/-- The call `decoder.Decode(&host)` with `host` a `net.IP`. -/
def DecodeIP (dec : Decoder) : Except String (List Nat × Decoder) :=
  match dec with
  | Except.ok (GobValue.bytes b) :: rest => Except.ok (b, rest)
  | Except.ok _ :: _ => Except.error "gob: type mismatch"
  | Except.error e :: _ => Except.error e
  | [] => Except.error "EOF"

/-- The call `decoder.Decode(&x)` with `x` an unsigned integer of the given
modulus (`uint16`, `uint32`): a value that does not fit is an error. -/
def DecodeUint (modulus : Nat) (dec : Decoder) : Except String (Nat × Decoder) :=
  match dec with
  | Except.ok (GobValue.uint n) :: rest =>
    if n < modulus then Except.ok (n, rest) else Except.error "gob: value out of range"
  | Except.ok _ :: _ => Except.error "gob: type mismatch"
  | Except.error e :: _ => Except.error e
  | [] => Except.error "EOF"

/-- The nodes built so far after `decoder.Decode(&host)` has written into the
backing array of `host`: the last `shared` nodes hold a slice of that array, so
each of them now reads its own length of bytes from the array `arr`. -/
def rebindHosts (arr : List Nat) (shared : Nat) (mnodes : List Node) : List Node :=
  mnodes.take (mnodes.length - shared) ++
    (mnodes.drop (mnodes.length - shared)).map
      (fun n => { n with Host := arr.take n.Host.length })

/-- The loop of `receiveNodes` with `n` iterations to go: decode host, port and
heartbeats, append the node, and adopt the heartbeat when it is higher than
`current_heartbeat`. The variable `host` is declared outside the loop: gob
decodes the bytes into its backing array `arr` when they fit, and makes a new
array only when they do not, so the nodes built since the last new array
(`shared` many) share the bytes with `host`. The result is the heartbeat, the
nodes and the error. -/
def receiveNodesLoop (now : Nat) : Nat → Decoder → Nat → List Nat → Nat → List Node →
    Nat × List Node × Option String
  | 0, _, hb, _, _, mnodes => (hb, mnodes, none)
  | n + 1, dec, hb, arr, shared, mnodes =>
    match DecodeIP dec with
    | Except.error e => (hb, mnodes, some e)
    | Except.ok (host, dec1) =>
      let reuse : Bool := decide (host.length ≤ arr.length)
      let arr1 := if reuse then host ++ arr.drop host.length else host
      let shared1 := if reuse then shared else 0
      let mnodes1 := rebindHosts arr1 shared1 mnodes
      match DecodeUint 65536 dec1 with
      | Except.error e => (hb, mnodes1, some e)
      | Except.ok (port, dec2) =>
        match DecodeUint U32 dec2 with
        | Except.error e => (hb, mnodes1, some e)
        | Except.ok (heartbeats, dec3) =>
          let newNode : Node :=
            { Host := host, Port := port, Heartbeats := heartbeats, Timestamp := now }
          receiveNodesLoop now n dec3 (if heartbeats > hb then heartbeats else hb)
            arr1 (shared1 + 1) (mnodes1 ++ [newNode])

/-- Function `receiveNodes`: the state it leaves, the nodes it returns and its
error. A negative length runs the loop zero times; `host` starts as nil. -/
def receiveNodes (o : Oracle) (s : State) (decoder : Decoder) :
    State × List Node × Option String :=
  match DecodeInt decoder with
  | Except.error e => (s, [], some e)
  | Except.ok (length, dec1) =>
    let r := receiveNodesLoop o.now length.toNat dec1 s.current_heartbeat [] 0 []
    ({ s with current_heartbeat := r.1 }, r.2.1, r.2.2)

/-! ## Concrete instances used in the examples -/

/-- Modelled from the spec: `Node.Address`, `Node.Touch` and the registry
helpers are not in src/. The canonical string form of a node is `ip:port`,
`Touch` stamps the node with the clock reading, the first dead node is the one
picked, and no dead node is forgotten. -/
def sampleDeps : Deps where
  Address := fun n => String.intercalate "." (n.Host.map Nat.repr) ++ ":" ++ Nat.repr n.Port
  Touch := fun now n => { n with Timestamp := now }
  pickDead := fun l => l.head?
  keepDead := fun _ _ => true

/-- A heap with the nodes `127.0.0.1:9001`, `127.0.0.1:9002`, ... -/
def sampleNodes (r : NodeRef) : Node :=
  { Host := [127, 0, 0, 1], Port := 9000 + r, Heartbeats := 0, Timestamp := 0 }

/-- A network on which every write succeeds, read at a fixed time. -/
def quietOracle (now : Nat) : Oracle :=
  { now := now, net := fun _ => NetResult.written }

/-- A network on which no address resolves, read at a fixed time. -/
def deafOracle (now : Nat) : Oracle :=
  { now := now, net := fun _ => NetResult.resolveError "no such host" }

/-- The state `init` leaves, with the given live nodes and heartbeat. -/
def startState (hb : Nat) (live : List NodeRef) : State :=
  { current_heartbeat := hb, pending_acks := [], nodes := sampleNodes,
    live_nodes := live, dead_nodes := [], transmissions := [] }

/-- A state whose table holds two probes of node 1, started at 1000 ms and at
3000 ms. -/
def twoProbes : State :=
  { startState 7 [1] with
    pending_acks := [("127.0.0.1:9001:6", { StartTime := 1000, Node := 1 }),
                     ("127.0.0.1:9001:7", { StartTime := 3000, Node := 1 })] }

/-- The oracles of a run with one heartbeat every 500 ms on a network on which
every write succeeds. -/
def everyHalfSecond (k : Nat) : Oracle := quietOracle (500 * k)

/-- The state after two heartbeat cycles, at 0 ms and at 500 ms, with node 1 as
the only live node, no ACK received, and a pass of the timeout check after each
cycle, at 250 ms and at 750 ms. -/
def afterTwoCycles : State :=
  timeoutCheckPass (quietOracle 750)
    (beginCycle sampleDeps (everyHalfSecond 1)
      (timeoutCheckPass (quietOracle 250)
        (beginCycle sampleDeps (everyHalfSecond 0) (startState 0 [1]))))

/-- The state `init` leaves, with no live node, the given dead nodes and the
given heartbeat. -/
def startStateWithDead (hb : Nat) (dead : List NodeRef) : State :=
  { current_heartbeat := hb, pending_acks := [], nodes := sampleNodes,
    live_nodes := [], dead_nodes := dead, transmissions := [] }

/-- The PING that a resurrection attempt sends to the dead node 5 with the
given code, on a network on which every write succeeds. -/
def resurrectionPing (code : Nat) : Transmission :=
  { target := "127.0.0.1:9005", verb := "PNG", code := code, result := NetResult.written }

/-- A decoder that resolves every datagram to a message of node 1 with the verb
`FWD` and the code 7. -/
def decodeAsForward (_ : State) (_ : String) (_ : List Nat) : Except String message :=
  Except.ok { sender := some 1, verb := "FWD", code := 7 }

/-- A gob stream with a list of two nodes, heartbeats 40 and 12. -/
def twoNodeStream : Decoder :=
  [Except.ok (GobValue.int 2),
   Except.ok (GobValue.bytes [10, 0, 0, 1]), Except.ok (GobValue.uint 9001),
   Except.ok (GobValue.uint 40),
   Except.ok (GobValue.bytes [10, 0, 0, 2]), Except.ok (GobValue.uint 9002),
   Except.ok (GobValue.uint 12)]

/-! ## Go map lemmas -/

theorem mem_mapDelete (m : List (String × pendingAck)) (k : String) (e : String × pendingAck) :
    e ∈ mapDelete m k ↔ e ∈ m ∧ e.1 ≠ k := by
  simp [mapDelete]

theorem mapLookup_eq_none_iff (m : List (String × pendingAck)) (k : String) :
    mapLookup m k = none ↔ ∀ e ∈ m, e.1 ≠ k := by
  simp [mapLookup]

theorem mapLookup_mapDelete_self (m : List (String × pendingAck)) (k : String) :
    mapLookup (mapDelete m k) k = none := by
  rw [mapLookup_eq_none_iff]
  intro e he
  exact ((mem_mapDelete m k e).1 he).2

theorem mapDelete_eq_self (m : List (String × pendingAck)) (k : String)
    (h : mapLookup m k = none) : mapDelete m k = m := by
  rw [mapLookup_eq_none_iff] at h
  unfold mapDelete
  rw [List.filter_eq_self]
  intro e he
  simpa using h e he

theorem mapLookup_mapStore_self (m : List (String × pendingAck)) (k : String) (v : pendingAck) :
    mapLookup (mapStore m k v) k = some v := by
  simp [mapLookup, mapStore]

theorem keys_mapDelete_nodup (m : List (String × pendingAck)) (k : String)
    (h : (m.map Prod.fst).Nodup) : ((mapDelete m k).map Prod.fst).Nodup := by
  unfold mapDelete
  exact (List.filter_sublist m).map Prod.fst |>.nodup h

theorem keys_mapStore_nodup (m : List (String × pendingAck)) (k : String) (v : pendingAck)
    (h : (m.map Prod.fst).Nodup) : ((mapStore m k v).map Prod.fst).Nodup := by
  unfold mapStore
  rw [List.map_cons, List.nodup_cons]
  refine ⟨?_, keys_mapDelete_nodup m k h⟩
  intro hk
  obtain ⟨e, he, hek⟩ := List.mem_map.1 hk
  exact ((mem_mapDelete m k e).1 he).2 hek

/-- The loop of the timeout check, run over a snapshot `l` of the entries on a
table `m`, leaves the entries of `m` whose key is not the key of a timed-out
entry of `l`. -/
theorem timeout_fold_eq_filter (now : Nat) (l m : List (String × pendingAck)) :
    l.foldl (fun m e => if e.2.Elapsed now > TIMEOUT_MILLIS then mapDelete m e.1 else m) m =
      m.filter (fun e => decide (∀ x ∈ l, x.2.Elapsed now > TIMEOUT_MILLIS → x.1 ≠ e.1)) := by
  induction l generalizing m with
  | nil => simp
  | cons a l ih =>
    rw [List.foldl_cons, ih]
    by_cases ha : a.2.Elapsed now > TIMEOUT_MILLIS
    · rw [if_pos ha]
      unfold mapDelete
      rw [List.filter_filter]
      apply List.filter_congr
      intro e _
      rw [Bool.eq_iff_iff]
      simp only [Bool.and_eq_true, decide_eq_true_eq, bne_iff_ne, ne_eq, List.mem_cons,
        forall_eq_or_imp]
      constructor
      · rintro ⟨h1, h2⟩
        exact ⟨fun _ h => h2 h.symm, h1⟩
      · rintro ⟨h1, h2⟩
        exact ⟨h2, fun h => h1 ha h.symm⟩
    · rw [if_neg ha]
      apply List.filter_congr
      intro e _
      simp [ha]

/-! ## C4, C5, C6, C10: the pending-ack table -/

/-- C4: handling an ACK from sender `sender` with code `code` returns nil and
leaves the table with the key of (address of the sender, code) erased: the
entries after are exactly the entries before whose key is another one, each
unchanged. -/
theorem C4_ack_erases_exactly_the_matching_key (d : Deps) (o : Oracle) (s : State)
    (sender : NodeRef) (verb : String) (code : Nat) :
    ∃ s1, receiveVerbAckUDP d o s { sender := some sender, verb := verb, code := code }
        = some (s1, none) ∧
      s1.pending_acks = mapDelete s.pending_acks (ackKey d s sender code) ∧
      mapLookup s1.pending_acks (ackKey d s sender code) = none ∧
      ∀ e, e ∈ s1.pending_acks ↔ (e ∈ s.pending_acks ∧ e.1 ≠ ackKey d s sender code) := by
  unfold receiveVerbAckUDP
  simp only
  cases hl : mapLookup s.pending_acks (ackKey d s sender code) with
  | none =>
    refine ⟨s, rfl, (mapDelete_eq_self _ _ hl).symm, hl, ?_⟩
    intro e
    constructor
    · intro he
      exact ⟨he, (mapLookup_eq_none_iff _ _).1 hl e he⟩
    · exact fun h => h.1
  | some v =>
    exact ⟨_, rfl, rfl, mapLookup_mapDelete_self _ _, fun e => mem_mapDelete _ _ e⟩

/-- C5: on a table with one entry per key, one pass of the timeout check at
clock value `now` leaves exactly the entries whose elapsed time, `now -
StartTime` modulo 2^32, is at most 2500, each unchanged and in place, and
touches nothing else of the state. -/
theorem C5_timeout_pass_keeps_exactly_the_fresh (o : Oracle) (s : State)
    (h : (s.pending_acks.map Prod.fst).Nodup) :
    (timeoutCheckPass o s).pending_acks =
        s.pending_acks.filter (fun e => decide (subU32 o.now e.2.StartTime ≤ 2500)) ∧
      (timeoutCheckPass o s).current_heartbeat = s.current_heartbeat ∧
      (timeoutCheckPass o s).nodes = s.nodes := by
  refine ⟨?_, rfl, rfl⟩
  show s.pending_acks.foldl _ s.pending_acks = _
  rw [timeout_fold_eq_filter]
  apply List.filter_congr
  intro e he
  rw [Bool.eq_iff_iff]
  simp only [decide_eq_true_eq, pendingAck.Elapsed, TIMEOUT_MILLIS]
  constructor
  · intro hx
    by_contra hgt
    exact hx e he (by omega) rfl
  · intro hle x hx hgt hxe
    have hxe2 : x = e := by
      have := List.inj_on_of_nodup_map h hx he hxe
      exact this
    subst hxe2
    omega

/-- C6: `transmitVerbPingUDP` stores the pending ack under the key of (address
of the node, code) with the current time as `StartTime` whatever the network
answers, and a later pass of the timeout check at which more than 2500 ms have
elapsed removes it. -/
theorem C6_probe_is_pending_whatever_the_send_returns (d : Deps) (o : Oracle) (s : State)
    (node : NodeRef) (code : Nat) :
    (transmitVerbPingUDP d o s node code).1.pending_acks =
        mapStore s.pending_acks (pingKey d s node code) { StartTime := o.now, Node := node } ∧
      mapLookup (transmitVerbPingUDP d o s node code).1.pending_acks (pingKey d s node code) =
        some { StartTime := o.now, Node := node } ∧
      ∀ o2 : Oracle, TIMEOUT_MILLIS < subU32 o2.now o.now →
        mapLookup (timeoutCheckPass o2 (transmitVerbPingUDP d o s node code).1).pending_acks
          (pingKey d s node code) = none := by
  have hp : (transmitVerbPingUDP d o s node code).1.pending_acks =
      mapStore s.pending_acks (pingKey d s node code) { StartTime := o.now, Node := node } := by
    unfold transmitVerbPingUDP transmitVerbGenericUDP
    simp only
    split <;> rfl
  refine ⟨hp, ?_, ?_⟩
  · rw [hp]
    exact mapLookup_mapStore_self _ _ _
  · intro o2 h2
    show mapLookup (List.foldl _ _ _) _ = none
    rw [timeout_fold_eq_filter, mapLookup_eq_none_iff]
    intro e he hk
    rw [List.mem_filter, decide_eq_true_eq] at he
    refine he.2 (pingKey d s node code, { StartTime := o.now, Node := node }) ?_ h2 hk.symm
    rw [hp]
    exact List.mem_cons_self _ _

/-- C10: handling an ACK from `sender` with code `code` stores in the sender
node the result of `Touch` on the node with `Heartbeats` set to
`current_heartbeat` when the key of (address of the sender, code) is in the
table, and leaves every node as it was when the key is not in the table. -/
theorem C10_ack_refreshes_sender_iff_pending (d : Deps) (o : Oracle) (s : State)
    (sender : NodeRef) (verb : String) (code : Nat) :
    ∃ s1, receiveVerbAckUDP d o s { sender := some sender, verb := verb, code := code }
        = some (s1, none) ∧
      s1.nodes =
        if (mapLookup s.pending_acks (ackKey d s sender code)).isSome then
          Function.update s.nodes sender
            (d.Touch o.now { s.nodes sender with Heartbeats := s.current_heartbeat })
        else s.nodes := by
  unfold receiveVerbAckUDP
  simp only
  cases hl : mapLookup s.pending_acks (ackKey d s sender code) with
  | none => exact ⟨s, rfl, by simp⟩
  | some v => exact ⟨_, rfl, by simp⟩

/-! ## C9: the key of the pending-ack table -/

/-- The number a string of decimal digits stands for. -/
theorem digitChar_value (k : Nat) (h : k < 10) :
    (Nat.digitChar k).toNat - 48 = k ∧ Nat.digitChar k ≠ ':' := by
  interval_cases k <;> exact ⟨rfl, by decide⟩

/-- The digits `Nat.toDigitsCore` puts in front of its accumulator contain no
colon and read back as the number. -/
theorem toDigitsCore_spec (fuel : Nat) : ∀ (n : Nat) (acc : List Char), n < fuel →
    ∃ ds, Nat.toDigitsCore 10 fuel n acc = ds ++ acc ∧ (∀ c ∈ ds, c ≠ ':') ∧
      ds.foldl (fun v c => 10 * v + (c.toNat - 48)) 0 = n := by
  induction fuel with
  | zero => intro n acc h; omega
  | succ fuel ih =>
    intro n acc h
    have hd := digitChar_value (n % 10) (Nat.mod_lt _ (by decide))
    unfold Nat.toDigitsCore
    simp only
    by_cases h0 : n / 10 = 0
    · rw [if_pos h0]
      refine ⟨[Nat.digitChar (n % 10)], rfl, ?_, ?_⟩
      · intro c hc
        rw [List.mem_singleton] at hc
        rw [hc]
        exact hd.2
      · simp only [List.foldl_cons, List.foldl_nil, hd.1]
        omega
    · rw [if_neg h0]
      obtain ⟨ds, hds, hcolon, hval⟩ := ih (n / 10) (Nat.digitChar (n % 10) :: acc) (by omega)
      refine ⟨ds ++ [Nat.digitChar (n % 10)], ?_, ?_, ?_⟩
      · rw [hds]
        simp
      · intro c hc
        rw [List.mem_append, List.mem_singleton] at hc
        rcases hc with hc | hc
        · exact hcolon c hc
        · rw [hc]
          exact hd.2
      · rw [List.foldl_append, hval]
        simp only [List.foldl_cons, List.foldl_nil, hd.1]
        omega

/-- The decimal digits of a number contain no colon. -/
theorem toDigits_no_colon (n : Nat) : ∀ c ∈ Nat.toDigits 10 n, c ≠ ':' := by
  obtain ⟨ds, hds, hcolon, _⟩ := toDigitsCore_spec (n + 1) n [] (Nat.lt_succ_self n)
  unfold Nat.toDigits
  rw [hds, List.append_nil]
  exact hcolon

/-- Two numbers with the same decimal digits are equal. -/
theorem toDigits_injective (a b : Nat) (h : Nat.toDigits 10 a = Nat.toDigits 10 b) : a = b := by
  obtain ⟨da, hda, _, hva⟩ := toDigitsCore_spec (a + 1) a [] (Nat.lt_succ_self a)
  obtain ⟨db, hdb, _, hvb⟩ := toDigitsCore_spec (b + 1) b [] (Nat.lt_succ_self b)
  unfold Nat.toDigits at h
  rw [hda, hdb, List.append_nil, List.append_nil] at h
  rw [← hva, ← hvb, h]

/-- A list is cut in one way only at its last colon. -/
theorem split_at_last_colon : ∀ (l1 l2 r1 r2 : List Char),
    (∀ c ∈ r1, c ≠ ':') → (∀ c ∈ r2, c ≠ ':') →
    l1 ++ ':' :: r1 = l2 ++ ':' :: r2 → l1 = l2 ∧ r1 = r2 := by
  intro l1
  induction l1 with
  | nil =>
    intro l2 r1 r2 h1 _ h
    cases l2 with
    | nil =>
      simp only [List.nil_append, List.cons.injEq, true_and] at h
      exact ⟨rfl, h⟩
    | cons y l2 =>
      simp only [List.nil_append, List.cons_append, List.cons.injEq] at h
      exact absurd rfl (h1 ':' (by rw [h.2]; simp))
  | cons x l1 ih =>
    intro l2 r1 r2 h1 h2 h
    cases l2 with
    | nil =>
      simp only [List.nil_append, List.cons_append, List.cons.injEq] at h
      exact absurd rfl (h2 ':' (by rw [← h.2]; simp))
    | cons y l2 =>
      simp only [List.cons_append, List.cons.injEq] at h
      obtain ⟨hl, hr⟩ := ih l2 r1 r2 h1 h2 h.2
      exact ⟨by rw [h.1, hl], hr⟩

/-- The rendering of a `uint32` code is its decimal digits. -/
theorem FormatInt_int64_data (c : Nat) (h : c < U32) :
    (FormatInt (int64 c)).data = Nat.toDigits 10 c := by
  have hw : wrapU32 c = c := Nat.mod_eq_of_lt h
  have hn : ¬ ((Int.ofNat c) < 0) := by simp
  unfold FormatInt int64
  rw [hw, if_neg hn]
  rfl

/-- The key `a + ":" + FormatInt(int64(c))` determines the address and the
code. -/
theorem key_injective (a1 a2 : String) (c1 c2 : Nat) (h1 : c1 < U32) (h2 : c2 < U32)
    (h : a1 ++ ":" ++ FormatInt (int64 c1) = a2 ++ ":" ++ FormatInt (int64 c2)) :
    a1 = a2 ∧ c1 = c2 := by
  have hd := congrArg String.data h
  simp only [String.data_append, FormatInt_int64_data c1 h1, FormatInt_int64_data c2 h2,
    List.append_assoc, List.singleton_append] at hd
  obtain ⟨ha, hr⟩ := split_at_last_colon a1.data a2.data _ _ (toDigits_no_colon c1)
    (toDigits_no_colon c2) hd
  exact ⟨String.ext ha, toDigits_injective c1 c2 hr⟩

/-- C9: for 32-bit codes the key `a + ":" + decimal(c)` is the same string for
two (address, code) pairs exactly when the addresses and the codes are the
same; and the key `receiveVerbAckUDP` computes for (sender, code) is the key
`transmitVerbPingUDP` computes for (node, code) exactly when the sender and the
node have the same address. -/
theorem C9_key_identifies_address_and_code (d : Deps) (s : State) (sender node : NodeRef)
    (a1 a2 : String) (c1 c2 code : Nat) (h1 : c1 < U32) (h2 : c2 < U32) (h : code < U32) :
    (a1 ++ ":" ++ FormatInt (int64 c1) = a2 ++ ":" ++ FormatInt (int64 c2) ↔
        (a1 = a2 ∧ c1 = c2)) ∧
      (ackKey d s sender code = pingKey d s node code ↔
        d.Address (s.nodes sender) = d.Address (s.nodes node)) := by
  constructor
  · constructor
    · exact key_injective a1 a2 c1 c2 h1 h2
    · rintro ⟨rfl, rfl⟩
      rfl
  · constructor
    · intro hk
      exact (key_injective _ _ code code h h hk).1
    · intro ha
      unfold ackKey pingKey
      rw [ha]

/-- C9 at an instance: the codes 6 and 7 are 32-bit codes, and the keys of
`127.0.0.1:9001` under them differ. -/
theorem C9_witness :
    ("127.0.0.1:9001" ++ ":" ++ FormatInt (int64 6) = "127.0.0.1:9001" ++ ":" ++ FormatInt (int64 7) ↔
        ("127.0.0.1:9001" = "127.0.0.1:9001" ∧ 6 = 7)) ∧
      (ackKey sampleDeps (startState 7 [1]) 1 7 = pingKey sampleDeps (startState 7 [1]) 1 7 ↔
        sampleDeps.Address ((startState 7 [1]).nodes 1) =
          sampleDeps.Address ((startState 7 [1]).nodes 1)) :=
  C9_key_identifies_address_and_code sampleDeps (startState 7 [1]) 1 1 "127.0.0.1:9001"
    "127.0.0.1:9001" 6 7 7 (by decide) (by decide) (by decide)

/-- C5 at an instance: at 4000 ms the probe started at 1000 ms is removed and
the probe started at 3000 ms is kept. -/
theorem C5_witness :
    (twoProbes.pending_acks.map Prod.fst).Nodup ∧
      (timeoutCheckPass (quietOracle 4000) twoProbes).pending_acks =
        [("127.0.0.1:9001:7", { StartTime := 3000, Node := 1 })] :=
  ⟨by decide,
   (C5_timeout_pass_keeps_exactly_the_fresh (quietOracle 4000) twoProbes (by decide)).1.trans
     (by decide)⟩

/-- C6 at an instance: the send to node 1 at 1000 ms fails, the probe is
pending all the same, and the pass of the timeout check at 4000 ms removes it. -/
theorem C6_witness :
    (transmitVerbPingUDP sampleDeps (deafOracle 1000) (startState 7 [1]) 1 7).2 =
        some "no such host" ∧
      TIMEOUT_MILLIS < subU32 (quietOracle 4000).now (deafOracle 1000).now ∧
      mapLookup (timeoutCheckPass (quietOracle 4000)
          (transmitVerbPingUDP sampleDeps (deafOracle 1000) (startState 7 [1]) 1 7).1).pending_acks
        (pingKey sampleDeps (startState 7 [1]) 1 7) = none :=
  ⟨rfl, by decide,
   (C6_probe_is_pending_whatever_the_send_returns sampleDeps (deafOracle 1000)
      (startState 7 [1]) 1 7).2.2 (quietOracle 4000) (by decide)⟩

/-! ## C3, C7, C8: the heartbeat loop of `Begin` -/

/-- The state `PingNode` leaves: one more pending ack, one more transmission. -/
theorem PingNode_state (d : Deps) (o : Oracle) (s : State) (r : NodeRef) :
    (PingNode d o s r).1 =
      { s with
        pending_acks := mapStore s.pending_acks (pingKey d s r s.current_heartbeat)
          { StartTime := o.now, Node := r },
        transmissions := s.transmissions ++ [pingOf d o s s.current_heartbeat r] } := by
  unfold PingNode transmitVerbPingUDP transmitVerbGenericUDP pingOf
  simp only
  split <;> rfl

/-- Pinging a list of nodes in turn changes the table and the transmissions
only, and transmits one PING per element of the list. -/
theorem pingFold_state (d : Deps) (o : Oracle) (l : List NodeRef) : ∀ s : State,
    (l.foldl (fun acc node => (PingNode d o acc node).1) s).current_heartbeat
        = s.current_heartbeat ∧
      (l.foldl (fun acc node => (PingNode d o acc node).1) s).nodes = s.nodes ∧
      (l.foldl (fun acc node => (PingNode d o acc node).1) s).live_nodes = s.live_nodes ∧
      (l.foldl (fun acc node => (PingNode d o acc node).1) s).dead_nodes = s.dead_nodes ∧
      (l.foldl (fun acc node => (PingNode d o acc node).1) s).transmissions =
        s.transmissions ++ l.map (pingOf d o s s.current_heartbeat) ∧
      ((s.pending_acks.map Prod.fst).Nodup →
        ((l.foldl (fun acc node => (PingNode d o acc node).1) s).pending_acks.map
          Prod.fst).Nodup) := by
  induction l with
  | nil => intro s; simp
  | cons r l ih =>
    intro s
    rw [List.foldl_cons, PingNode_state]
    obtain ⟨h1, h2, h3, h4, h5, h6⟩ := ih
      { s with
        pending_acks := mapStore s.pending_acks (pingKey d s r s.current_heartbeat)
          { StartTime := o.now, Node := r },
        transmissions := s.transmissions ++ [pingOf d o s s.current_heartbeat r] }
    refine ⟨h1, h2, h3, h4, ?_, ?_⟩
    · rw [h5]
      simp [pingOf]
    · intro hn
      exact h6 (keys_mapStore_nodup _ _ _ hn)

/-- The PING step of one cycle of `Begin` transmits one PING to each live
node, with the incremented heartbeat as its code. -/
theorem beginProbe_state (d : Deps) (o : Oracle) (s : State) :
    (beginProbe d o s).current_heartbeat = wrapU32 (s.current_heartbeat + 1) ∧
      (beginProbe d o s).transmissions =
        s.transmissions ++ s.live_nodes.map (pingOf d o s (wrapU32 (s.current_heartbeat + 1))) ∧
      ((s.pending_acks.map Prod.fst).Nodup →
        ((beginProbe d o s).pending_acks.map Prod.fst).Nodup) := by
  unfold beginProbe PingAllNodes PruneDeadFromList
  obtain ⟨h1, _, _, _, h5, h6⟩ := pingFold_state d o s.live_nodes
    { s with current_heartbeat := wrapU32 (s.current_heartbeat + 1),
             dead_nodes := s.dead_nodes.filter (fun r => d.keepDead o.now (s.nodes r)) }
  exact ⟨h1, h5, h6⟩

/-- One cycle of `Begin` increments the heartbeat modulo 2^32 and keeps the
keys of the table distinct. -/
theorem beginCycle_state (d : Deps) (o : Oracle) (s : State) :
    (beginCycle d o s).current_heartbeat = wrapU32 (s.current_heartbeat + 1) ∧
      ((s.pending_acks.map Prod.fst).Nodup →
        ((beginCycle d o s).pending_acks.map Prod.fst).Nodup) := by
  obtain ⟨h1, _, h3⟩ := beginProbe_state d o s
  unfold beginCycle
  simp only
  split
  · unfold ResurrectDeadNode
    split
    · rw [PingNode_state]
      exact ⟨h1, fun hn => keys_mapStore_nodup _ _ _ (h3 hn)⟩
    · exact ⟨h1, h3⟩
  · exact ⟨h1, h3⟩

/-- The heartbeat after `k` cycles of `Begin`. -/
theorem beginCycles_heartbeat (d : Deps) (os : Nat → Oracle) (s : State) (k : Nat) :
    (beginCycles d os s k).current_heartbeat % U32 = (s.current_heartbeat + k) % U32 := by
  induction k with
  | zero => rfl
  | succ k ih =>
    show (beginCycle d (os k) (beginCycles d os s k)).current_heartbeat % U32 = _
    rw [(beginCycle_state d (os k) _).1]
    unfold wrapU32
    rw [Nat.mod_mod, Nat.add_mod, ih, ← Nat.add_mod]
    rfl

/-- Cycle `k` of `Begin` calls `ResurrectDeadNode` exactly when the heartbeat
it has incremented, the starting heartbeat plus `k + 1` modulo 2^32, is a
multiple of 25. -/
theorem resurrectsInCycle_eq (d : Deps) (os : Nat → Oracle) (s : State) (k : Nat) :
    resurrectsInCycle d os s k = decide ((s.current_heartbeat + k + 1) % U32 % 25 = 0) := by
  unfold resurrectsInCycle resurrectDue
  rw [(beginProbe_state d (os k) _).1]
  unfold wrapU32
  rw [Nat.add_mod, beginCycles_heartbeat, ← Nat.add_mod]
  rfl

/-- In a list with distinct keys at most one entry has a given key. -/
theorem filter_key_length_le_one (l : List (String × pendingAck)) (k : String)
    (h : (l.map Prod.fst).Nodup) : (l.filter (fun e => e.1 == k)).length ≤ 1 := by
  induction l with
  | nil => simp
  | cons a l ih =>
    rw [List.map_cons, List.nodup_cons] at h
    by_cases ha : a.1 = k
    · have hnone : l.filter (fun e => e.1 == k) = [] := by
        rw [List.filter_eq_nil_iff]
        intro e he hek
        have hek2 : e.1 = k := by simpa using hek
        exact h.1 (List.mem_map.2 ⟨e, he, by rw [hek2, ha]⟩)
      simp [List.filter_cons, ha, hnone]
    · have := ih h.2
      simpa [List.filter_cons, ha] using this

/-- The keys of the pending-ack table are distinct in every reachable state. -/
theorem reachable_keys_nodup (d : Deps) (s : State) (h : Reachable d s) :
    (s.pending_acks.map Prod.fst).Nodup := by
  induction h with
  | init s h => rw [h]; exact List.nodup_nil
  | cycle o s _ ih => exact (beginCycle_state d o s).2 ih
  | ack o msg s s1 e _ hr ih =>
    unfold receiveVerbAckUDP at hr
    split at hr
    · exact absurd hr (by simp)
    · simp only at hr
      split at hr
      · simp only [Option.some.injEq, Prod.mk.injEq] at hr
        rw [← hr.1]
        exact keys_mapDelete_nodup _ _ ih
      · simp only [Option.some.injEq, Prod.mk.injEq] at hr
        rw [← hr.1]
        exact ih
  | sweep o s _ ih =>
    unfold timeoutCheckPass
    simp only
    rw [timeout_fold_eq_filter]
    exact ((List.filter_sublist _).map Prod.fst).nodup ih

/-- Two heartbeat cycles from the state `init` leaves, each followed by a pass
of the timeout check, are a run of the package. -/
theorem afterTwoCycles_reachable : Reachable sampleDeps afterTwoCycles :=
  Reachable.sweep (quietOracle 750) _
    (Reachable.cycle (everyHalfSecond 1) _
      (Reachable.sweep (quietOracle 250) _
        (Reachable.cycle (everyHalfSecond 0) (startState 0 [1])
          (Reachable.init (startState 0 [1]) rfl))))

/-- C3, as stated, fails: after two heartbeat cycles 500 ms apart with one live
node and no ACK, the pending-ack table holds two entries whose `Node` is that
node, one under the code 1 and one under the code 2; the passes of the timeout
check in between remove neither, both being younger than 2500 ms. -/
theorem C3_two_probes_of_one_target_outstanding :
    Reachable sampleDeps afterTwoCycles ∧ (pendingFor afterTwoCycles 1).length = 2 :=
  ⟨afterTwoCycles_reachable, by decide⟩

/-- C3, amended: in every state reachable by heartbeat cycles of `Begin`, ACK
handling and passes of the timeout check, the keys of the pending-ack table are
distinct, so the table holds at most one entry for any given pair of a target
address and a code. -/
theorem C3_at_most_one_probe_per_address_and_code (d : Deps) (s : State)
    (h : Reachable d s) :
    (s.pending_acks.map Prod.fst).Nodup ∧
      ∀ (a : String) (c : Nat), (pendingUnder s (a ++ ":" ++ FormatInt (int64 c))).length ≤ 1 :=
  ⟨reachable_keys_nodup d s h,
   fun _ _ => filter_key_length_le_one _ _ (reachable_keys_nodup d s h)⟩

/-- C3, amended, at an instance: after the two cycles there is one entry for
`127.0.0.1:9001` under the code 1. -/
theorem C3_witness :
    Reachable sampleDeps afterTwoCycles ∧
      (pendingUnder afterTwoCycles ("127.0.0.1:9001" ++ ":" ++ FormatInt (int64 1))).length ≤ 1 :=
  ⟨afterTwoCycles_reachable,
   (C3_at_most_one_probe_per_address_and_code sampleDeps afterTwoCycles
      afterTwoCycles_reachable).2 "127.0.0.1:9001" 1⟩

/-- C7, as stated, fails: with two live nodes one heartbeat cycle transmits a
PING to each of the two. -/
theorem C7_cycle_pings_two_live_nodes :
    (startState 0 [1, 2]).live_nodes ≠ [] ∧
      (beginCycle sampleDeps (quietOracle 0) (startState 0 [1, 2])).transmissions =
        [{ target := "127.0.0.1:9001", verb := "PNG", code := 1, result := NetResult.written },
         { target := "127.0.0.1:9002", verb := "PNG", code := 1, result := NetResult.written }] :=
  ⟨by decide, by decide⟩

/-- C7, amended: the `PingAllNodes` call of one heartbeat cycle transmits one
PING to every live node, each with the incremented heartbeat as its code: as
many PINGs as there are live nodes. The rest of the cycle adds at most one more
transmission (the probe of a dead node by `ResurrectDeadNode`). -/
theorem C7_cycle_pings_every_live_node (d : Deps) (o : Oracle) (s : State) :
    (beginProbe d o s).transmissions =
        s.transmissions ++ s.live_nodes.map (pingOf d o s (wrapU32 (s.current_heartbeat + 1))) ∧
      (beginProbe d o s).transmissions.length = s.transmissions.length + s.live_nodes.length ∧
      ∃ extra, (beginCycle d o s).transmissions = (beginProbe d o s).transmissions ++ extra ∧
        extra.length ≤ 1 := by
  have h := (beginProbe_state d o s).2.1
  refine ⟨h, by rw [h, List.length_append, List.length_map], ?_⟩
  unfold beginCycle
  simp only
  split
  · unfold ResurrectDeadNode
    split
    · rw [PingNode_state]
      exact ⟨_, rfl, Nat.le_refl 1⟩
    · exact ⟨[], (List.append_nil _).symm, Nat.zero_le 1⟩
  · exact ⟨[], (List.append_nil _).symm, Nat.zero_le 1⟩

/-- Cycle `k` of `Begin` ends with the call of `ResurrectDeadNode` when the
guard holds, and without it otherwise. -/
theorem beginCycles_succ (d : Deps) (os : Nat → Oracle) (s : State) (k : Nat) :
    beginCycles d os s (k + 1) =
      if resurrectsInCycle d os s k = true then
        ResurrectDeadNode d (os k) (beginProbe d (os k) (beginCycles d os s k))
      else beginProbe d (os k) (beginCycles d os s k) := rfl

set_option maxRecDepth 100000 in
/-- The transmissions of the run that starts at the heartbeat 4294967274 with
the dead node 5: one probe at the end of cycle 0, none up to the end of cycle
20, a second one at the end of cycle 21. -/
theorem transmissions_across_wrap :
    (beginCycles sampleDeps everyHalfSecond (startStateWithDead 4294967274 [5]) 1).transmissions
        = [resurrectionPing 4294967275] ∧
      (beginCycles sampleDeps everyHalfSecond (startStateWithDead 4294967274 [5]) 21).transmissions
        = [resurrectionPing 4294967275] ∧
      (beginCycles sampleDeps everyHalfSecond (startStateWithDead 4294967274 [5]) 22).transmissions
        = [resurrectionPing 4294967275, resurrectionPing 0] :=
  ⟨by decide, by decide, by decide⟩

set_option maxRecDepth 100000 in
/-- The transmissions of the run that starts at the heartbeat 24 with the dead
node 5: one probe at the end of cycle 0, none up to the end of cycle 24, a
second one at the end of cycle 25. -/
theorem transmissions_from_24 :
    (beginCycles sampleDeps everyHalfSecond (startStateWithDead 24 [5]) 1).transmissions
        = [resurrectionPing 25] ∧
      (beginCycles sampleDeps everyHalfSecond (startStateWithDead 24 [5]) 25).transmissions
        = [resurrectionPing 25] ∧
      (beginCycles sampleDeps everyHalfSecond (startStateWithDead 24 [5]) 26).transmissions
        = [resurrectionPing 25, resurrectionPing 50] :=
  ⟨by decide, by decide, by decide⟩

/-- C8, as stated, fails at the wrap of the counter: starting from the
heartbeat 4294967274 with one dead node, `ResurrectDeadNode` is called in cycle
0 (heartbeat 4294967275) and next in cycle 21 (heartbeat 0), 21 cycles later:
the dead node is probed at the end of cycle 0, not again up to the end of cycle
20, and a second time at the end of cycle 21. -/
theorem C8_gap_of_21_cycles_at_wrap :
    resurrectsInCycle sampleDeps everyHalfSecond (startStateWithDead 4294967274 [5]) 0 = true ∧
      resurrectsInCycle sampleDeps everyHalfSecond (startStateWithDead 4294967274 [5]) 21 = true ∧
      (∀ k, 0 < k → k < 21 →
        resurrectsInCycle sampleDeps everyHalfSecond (startStateWithDead 4294967274 [5]) k
          = false) ∧
      (beginCycles sampleDeps everyHalfSecond (startStateWithDead 4294967274 [5]) 1).transmissions
        = [resurrectionPing 4294967275] ∧
      (beginCycles sampleDeps everyHalfSecond (startStateWithDead 4294967274 [5]) 21).transmissions
        = [resurrectionPing 4294967275] ∧
      (beginCycles sampleDeps everyHalfSecond (startStateWithDead 4294967274 [5]) 22).transmissions
        = [resurrectionPing 4294967275, resurrectionPing 0] := by
  refine ⟨?_, ?_, ?_, transmissions_across_wrap.1, transmissions_across_wrap.2.1,
    transmissions_across_wrap.2.2⟩
  · rw [resurrectsInCycle_eq]
    decide
  · rw [resurrectsInCycle_eq]
    decide
  · intro k h1 h2
    rw [resurrectsInCycle_eq, decide_eq_false_iff_not]
    show ¬ (4294967274 + k + 1) % 4294967296 % 25 = 0
    have hlt : 4294967274 + k + 1 < 4294967296 := by omega
    rw [Nat.mod_eq_of_lt hlt]
    omega

/-- C8, amended: every cycle `k` of the loop of `Begin` ends with the call of
`ResurrectDeadNode` exactly when the heartbeat it has incremented, the starting
heartbeat plus `k + 1` modulo 2^32, is a multiple of 25, and with no such call
otherwise; as long as the counter does not wrap on the way, the next cycle that
calls it after cycle `i` is cycle `i + 25`. -/
theorem C8_resurrection_every_25_cycles_without_wrap (d : Deps) (os : Nat → Oracle)
    (s : State) (i : Nat) (hw : s.current_heartbeat + i + 26 < U32)
    (hi : resurrectsInCycle d os s i = true) :
    (∀ k, beginCycles d os s (k + 1) =
        if (s.current_heartbeat + k + 1) % U32 % 25 = 0 then
          ResurrectDeadNode d (os k) (beginProbe d (os k) (beginCycles d os s k))
        else beginProbe d (os k) (beginCycles d os s k)) ∧
      (∀ k, resurrectsInCycle d os s k = true ↔ (s.current_heartbeat + k + 1) % U32 % 25 = 0) ∧
      resurrectsInCycle d os s (i + 25) = true ∧
      ∀ k, i < k → k < i + 25 → resurrectsInCycle d os s k = false := by
  have hiff : ∀ k, resurrectsInCycle d os s k = true ↔
      (s.current_heartbeat + k + 1) % U32 % 25 = 0 := by
    intro k
    rw [resurrectsInCycle_eq, decide_eq_true_eq]
  have hU : U32 = 4294967296 := rfl
  rw [hU] at hw
  have hlt : ∀ k, k ≤ i + 25 → (s.current_heartbeat + k + 1) % U32 = s.current_heartbeat + k + 1 := by
    intro k hk
    apply Nat.mod_eq_of_lt
    rw [hU]
    omega
  rw [resurrectsInCycle_eq, decide_eq_true_eq, hlt i (by omega)] at hi
  refine ⟨?_, hiff, ?_, ?_⟩
  · intro k
    rw [beginCycles_succ]
    by_cases hk : (s.current_heartbeat + k + 1) % U32 % 25 = 0
    · rw [if_pos hk, if_pos ((hiff k).2 hk)]
    · rw [if_neg hk, if_neg (fun h => hk ((hiff k).1 h))]
  · rw [resurrectsInCycle_eq, decide_eq_true_eq, hlt (i + 25) (Nat.le_refl _)]
    omega
  · intro k h1 h2
    rw [resurrectsInCycle_eq, decide_eq_false_iff_not, hlt k (by omega)]
    omega

/-- C8, amended, at an instance: from the heartbeat 24 with one dead node the
cycles 0 and 25 call `ResurrectDeadNode` and the cycle 10 does not; cycle 0
ends with the call, and the dead node is probed at the end of cycle 0, not
again up to the end of cycle 24, and a second time at the end of cycle 25. -/
theorem C8_witness :
    (startStateWithDead 24 [5]).current_heartbeat + 0 + 26 < U32 ∧
      resurrectsInCycle sampleDeps everyHalfSecond (startStateWithDead 24 [5]) 0 = true ∧
      resurrectsInCycle sampleDeps everyHalfSecond (startStateWithDead 24 [5]) (0 + 25) = true ∧
      resurrectsInCycle sampleDeps everyHalfSecond (startStateWithDead 24 [5]) 10 = false ∧
      beginCycles sampleDeps everyHalfSecond (startStateWithDead 24 [5]) (0 + 1) =
        ResurrectDeadNode sampleDeps (everyHalfSecond 0)
          (beginProbe sampleDeps (everyHalfSecond 0)
            (beginCycles sampleDeps everyHalfSecond (startStateWithDead 24 [5]) 0)) ∧
      (beginCycles sampleDeps everyHalfSecond (startStateWithDead 24 [5]) 1).transmissions
        = [resurrectionPing 25] ∧
      (beginCycles sampleDeps everyHalfSecond (startStateWithDead 24 [5]) 25).transmissions
        = [resurrectionPing 25] ∧
      (beginCycles sampleDeps everyHalfSecond (startStateWithDead 24 [5]) 26).transmissions
        = [resurrectionPing 25, resurrectionPing 50] :=
  ⟨by decide, by decide,
   (C8_resurrection_every_25_cycles_without_wrap sampleDeps everyHalfSecond
      (startStateWithDead 24 [5]) 0 (by decide) (by decide)).2.2.1,
   (C8_resurrection_every_25_cycles_without_wrap sampleDeps everyHalfSecond
      (startStateWithDead 24 [5]) 0 (by decide) (by decide)).2.2.2 10 (by decide) (by decide),
   ((C8_resurrection_every_25_cycles_without_wrap sampleDeps everyHalfSecond
      (startStateWithDead 24 [5]) 0 (by decide) (by decide)).1 0).trans (if_pos (by decide)),
   transmissions_from_24.1, transmissions_from_24.2.1, transmissions_from_24.2.2⟩

/-! ## C11: verb dispatch -/

/-- C11: for a decoded message with a resolved sender, on a network on which
the ACK to the sender is written, `receiveMessageUDP` returns an error exactly
when the verb is FWD or NFP, the error being "FWD: Unsupported operation" or
"NFP: Unsupported operation"; a message with a verb other than PNG, ACK, FWD
and NFP returns nil and leaves the state, the pending-ack table with it, as it
was. -/
theorem C11_dispatch_fails_only_for_stub_verbs (d : Deps) (o : Oracle) (s : State)
    (decodeMessage : State → String → List Nat → Except String message)
    (addr : String) (msg_bytes : List Nat) (msg : message) (sender : NodeRef)
    (hd : decodeMessage s addr msg_bytes = Except.ok msg) (hs : msg.sender = some sender)
    (hnet : o.net (d.Address (s.nodes sender)) = NetResult.written) :
    ∃ s1 e, receiveMessageUDP d o s decodeMessage addr msg_bytes = some (s1, e) ∧
      (e.isSome = true ↔ (msg.verb = "FWD" ∨ msg.verb = "NFP")) ∧
      (msg.verb = "FWD" → e = some "FWD: Unsupported operation") ∧
      (msg.verb = "NFP" → e = some "NFP: Unsupported operation") ∧
      ((msg.verb ≠ "PNG" ∧ msg.verb ≠ "ACK" ∧ msg.verb ≠ "FWD" ∧ msg.verb ≠ "NFP") →
        (e = none ∧ s1 = s ∧ s1.pending_acks = s.pending_acks)) := by
  obtain ⟨sd, verb, code⟩ := msg
  simp only at hs
  subst hs
  unfold receiveMessageUDP
  rw [hd]
  simp only
  by_cases h1 : verb = "PNG"
  · subst h1
    rw [if_pos rfl]
    unfold receiveVerbPingUDP transmitVerbAckUDP transmitVerbGenericUDP
    simp only [hnet]
    exact ⟨_, none, rfl, by decide, by decide, by decide, fun h => absurd rfl h.1⟩
  · rw [if_neg h1]
    by_cases h2 : verb = "ACK"
    · subst h2
      rw [if_pos rfl]
      unfold receiveVerbAckUDP
      simp only
      cases mapLookup s.pending_acks (ackKey d s sender code) with
      | none => exact ⟨s, none, rfl, by decide, by decide, by decide, fun h => absurd rfl h.2.1⟩
      | some v => exact ⟨_, none, rfl, by decide, by decide, by decide, fun h => absurd rfl h.2.1⟩
    · rw [if_neg h2]
      by_cases h3 : verb = "FWD"
      · subst h3
        rw [if_pos rfl]
        exact ⟨s, _, rfl, by decide, fun _ => rfl, by decide, fun h => absurd rfl h.2.2.1⟩
      · rw [if_neg h3]
        by_cases h4 : verb = "NFP"
        · subst h4
          rw [if_pos rfl]
          exact ⟨s, _, rfl, by decide, by decide, fun _ => rfl, fun h => absurd rfl h.2.2.2⟩
        · rw [if_neg h4]
          refine ⟨s, none, rfl, ?_, fun h => absurd h h3, fun h => absurd h h4,
            fun _ => ⟨rfl, rfl, rfl⟩⟩
          constructor
          · intro h
            exact absurd h (by decide)
          · rintro (h | h)
            · exact absurd h h3
            · exact absurd h h4

/-- C11 at an instance: a datagram decoded as a FWD of node 1, on a network on
which every write succeeds, returns the error of the stub. -/
theorem C11_witness :
    decodeAsForward (startState 7 [1]) "127.0.0.1:9001" [] =
        Except.ok { sender := some 1, verb := "FWD", code := 7 } ∧
      (quietOracle 0).net (sampleDeps.Address ((startState 7 [1]).nodes 1)) =
        NetResult.written ∧
      ∃ s1 e, receiveMessageUDP sampleDeps (quietOracle 0) (startState 7 [1]) decodeAsForward
          "127.0.0.1:9001" [] = some (s1, e) ∧ e = some "FWD: Unsupported operation" := by
  refine ⟨rfl, rfl, ?_⟩
  obtain ⟨s1, e, h, _, hf, _⟩ := C11_dispatch_fails_only_for_stub_verbs sampleDeps
    (quietOracle 0) (startState 7 [1]) decodeAsForward "127.0.0.1:9001" []
    { sender := some 1, verb := "FWD", code := 7 } 1 rfl rfl rfl
  exact ⟨s1, e, h, hf rfl⟩

/-! ## C12: the heartbeat counter -/

/-- Writing into the backing array of `host` changes no heartbeat. -/
theorem rebindHosts_heartbeats (arr : List Nat) (shared : Nat) (mnodes : List Node) :
    (rebindHosts arr shared mnodes).map Node.Heartbeats = mnodes.map Node.Heartbeats := by
  unfold rebindHosts
  rw [List.map_append, List.map_map]
  have hf : (Node.Heartbeats ∘ fun n : Node => { n with Host := arr.take n.Host.length })
      = Node.Heartbeats := by
    funext n
    rfl
  rw [hf, ← List.map_append, List.take_append_drop]

/-- The loop of `receiveNodes` keeps the heartbeats of the nodes it has, appends
the nodes it decodes and leaves the heartbeat at the maximum of its value
before and the heartbeats it decoded. -/
theorem receiveNodesLoop_heartbeat (now : Nat) : ∀ (n : Nat) (dec : Decoder) (hb : Nat)
    (arr : List Nat) (shared : Nat) (mnodes : List Node), ∃ added : List Nat,
      (receiveNodesLoop now n dec hb arr shared mnodes).2.1.map Node.Heartbeats =
        mnodes.map Node.Heartbeats ++ added ∧
      (receiveNodesLoop now n dec hb arr shared mnodes).1 = added.foldl max hb := by
  intro n
  induction n with
  | zero =>
    intro dec hb arr shared mnodes
    exact ⟨[], by simp [receiveNodesLoop], by simp [receiveNodesLoop]⟩
  | succ n ih =>
    intro dec hb arr shared mnodes
    unfold receiveNodesLoop
    split
    · exact ⟨[], by simp, by simp⟩
    · simp only
      split
      · exact ⟨[], by simp [rebindHosts_heartbeats], by simp⟩
      · split
        · exact ⟨[], by simp [rebindHosts_heartbeats], by simp⟩
        · rename_i hbs _ _
          obtain ⟨added, h1, h2⟩ := ih _ (if hbs > hb then hbs else hb) _ _ _
          refine ⟨hbs :: added, ?_, ?_⟩
          · rw [h1]
            simp [rebindHosts_heartbeats]
          · rw [h2]
            have hmax : (if hbs > hb then hbs else hb) = max hb hbs := by
              rw [Nat.max_def]
              split <;> split <;> omega
            rw [hmax]
            rfl

/-- C12, as stated, fails at the wrap of the counter: a cycle of `Begin` that
starts at the heartbeat 4294967295 leaves the heartbeat 0, which is lower. -/
theorem C12_cycle_wraps_heartbeat_to_zero :
    (beginCycle sampleDeps (quietOracle 0) (startState 4294967295 [])).current_heartbeat = 0 ∧
      ¬ ((startState 4294967295 []).current_heartbeat <
          (beginCycle sampleDeps (quietOracle 0) (startState 4294967295 [])).current_heartbeat) := by
  have h : (beginCycle sampleDeps (quietOracle 0) (startState 4294967295 [])).current_heartbeat
      = 0 := by
    rw [(beginCycle_state sampleDeps (quietOracle 0) (startState 4294967295 [])).1]
    rfl
  exact ⟨h, by rw [h]; exact Nat.not_lt_zero _⟩

/-- C12, amended: a cycle of `Begin` leaves `current_heartbeat` at its value
before plus one modulo 2^32; for a 32-bit value that is the value plus one,
strictly greater, unless the value was 4294967295, which wraps to 0, not
greater. `receiveNodes` leaves it at the maximum of its value before and the
heartbeats of the nodes it decoded, never lower, whatever the value before. -/
theorem C12_heartbeat_increases_until_wrap (d : Deps) (o : Oracle) (s : State)
    (decoder : Decoder) :
    (beginCycle d o s).current_heartbeat = wrapU32 (s.current_heartbeat + 1) ∧
      (s.current_heartbeat < U32 →
        ((beginCycle d o s).current_heartbeat =
            if s.current_heartbeat = 4294967295 then 0 else s.current_heartbeat + 1) ∧
        (s.current_heartbeat < (beginCycle d o s).current_heartbeat ↔
            s.current_heartbeat ≠ 4294967295)) ∧
      (receiveNodes o s decoder).1.current_heartbeat =
        ((receiveNodes o s decoder).2.1.map Node.Heartbeats).foldl max s.current_heartbeat ∧
      s.current_heartbeat ≤ (receiveNodes o s decoder).1.current_heartbeat := by
  have hc := (beginCycle_state d o s).1
  have hr : (receiveNodes o s decoder).1.current_heartbeat =
      ((receiveNodes o s decoder).2.1.map Node.Heartbeats).foldl max s.current_heartbeat := by
    unfold receiveNodes
    split
    · rfl
    · rename_i length dec1 _
      obtain ⟨added, h1, h2⟩ := receiveNodesLoop_heartbeat o.now length.toNat dec1
        s.current_heartbeat [] 0 []
      simp only
      rw [h2, h1, List.map_nil, List.nil_append]
  have hge : ∀ (l : List Nat) (a : Nat), a ≤ l.foldl max a := by
    intro l
    induction l with
    | nil => intro a; exact Nat.le_refl a
    | cons x l ih =>
      intro a
      exact Nat.le_trans (Nat.le_max_left a x) (ih (max a x))
  refine ⟨hc, ?_, hr, ?_⟩
  · intro h32
    have hU : U32 = 4294967296 := rfl
    rw [hU] at h32
    rw [hc]
    unfold wrapU32
    rw [hU]
    by_cases hmax : s.current_heartbeat = 4294967295
    · rw [if_pos hmax, hmax]
      exact ⟨rfl, by decide⟩
    · rw [if_neg hmax]
      have hlt : s.current_heartbeat + 1 < 4294967296 := by omega
      rw [Nat.mod_eq_of_lt hlt]
      exact ⟨rfl, fun _ => hmax, fun _ => Nat.lt_succ_self _⟩
  · rw [hr]
    exact hge _ _

/-- C12, amended, at two instances: from the heartbeat 24 a cycle leaves 25,
which is greater; from 4294967295 it leaves 0; and `receiveNodes` on a list
with the heartbeats 40 and 12 leaves 40 from 24 and 4294967295 from
4294967295. -/
theorem C12_witness :
    (startState 24 []).current_heartbeat < U32 ∧
      (beginCycle sampleDeps (quietOracle 0) (startState 24 [])).current_heartbeat = 25 ∧
      (startState 24 []).current_heartbeat <
        (beginCycle sampleDeps (quietOracle 0) (startState 24 [])).current_heartbeat ∧
      (startState 4294967295 []).current_heartbeat < U32 ∧
      (beginCycle sampleDeps (quietOracle 0) (startState 4294967295 [])).current_heartbeat = 0 ∧
      (receiveNodes (quietOracle 0) (startState 24 []) twoNodeStream).1.current_heartbeat = 40 ∧
      (receiveNodes (quietOracle 0) (startState 4294967295 [])
        twoNodeStream).1.current_heartbeat = 4294967295 :=
  ⟨by decide,
   ((C12_heartbeat_increases_until_wrap sampleDeps (quietOracle 0) (startState 24 [])
      twoNodeStream).2.1 (by decide)).1,
   ((C12_heartbeat_increases_until_wrap sampleDeps (quietOracle 0) (startState 24 [])
      twoNodeStream).2.1 (by decide)).2.2 (by decide),
   by decide,
   ((C12_heartbeat_increases_until_wrap sampleDeps (quietOracle 0) (startState 4294967295 [])
      twoNodeStream).2.1 (by decide)).1,
   (C12_heartbeat_increases_until_wrap sampleDeps (quietOracle 0) (startState 24 [])
      twoNodeStream).2.2.1.trans (by decide),
   (C12_heartbeat_increases_until_wrap sampleDeps (quietOracle 0) (startState 4294967295 [])
      twoNodeStream).2.2.1.trans (by decide)⟩

end Smudge
